import Mathlib

/-!
Verification development for the activity interchange core
(`tapiriik/services/interchange.py`).  Python numbers are modelled as
rationals (`ℚ`), machine integers as `Int`/`Nat`, `None` as `Option.none`,
and raised exceptions as `Except.error`/`Option.none`.
-/

/-- Unit tokens of `ActivityStatisticUnit` (the string values carry no
meaning beyond identity, so they are modelled as an enumeration). -/
inductive ASUnit
  | Seconds | Milliseconds | Meters | Kilometers | Feet | Yards | Miles
  | DegreesCelcius | DegreesFahrenheit
  | KilometersPerHour | HectometersPerHour | MetersPerSecond | MilesPerHour
  | HundredYardsPerHour
  | BeatsPerMinute | RevolutionsPerMinute | StepsPerMinute
  | DoubledStepsPerMinute
  | Strides | Kilocalories | Kilojoules | Watts
deriving DecidableEq, Repr

/-- An entry of the `conversions` table in `ActivityStatistic.convertValue`:
either a scalar factor (an `int`/`float` in the source) or a pair of
forward/inverse transform functions (a tuple of lambdas in the source). -/
inductive Conv
  | factor (c : ℚ)
  | pair (fwd inv : ℚ → ℚ)

/-- The `conversions` dict of `ActivityStatistic.convertValue`, in the
source's (insertion-ordered) key order.  Decimal literals are exact
rationals here; the source uses floats, whose rounding the specification
covers by its "floating tolerance" allowance. -/
def conversions : List ((ASUnit × ASUnit) × Conv) :=
  [((.KilometersPerHour, .HectometersPerHour), .factor 10),
   ((.KilometersPerHour, .MilesPerHour), .factor 0.621371),
   ((.MilesPerHour, .HundredYardsPerHour), .factor 17.6),
   ((.MetersPerSecond, .KilometersPerHour), .factor 3.6),
   ((.DegreesCelcius, .DegreesFahrenheit),
      .pair (fun c => c * 9 / 5 + 32) (fun f => (f - 32) * 5 / 9)),
   ((.Kilometers, .Meters), .factor 1000),
   ((.Meters, .Feet), .factor 3.281),
   ((.Meters, .Yards), .factor 1.09361),
   ((.Miles, .Feet), .factor 5280),
   ((.Kilocalories, .Kilojoules), .factor 4.184),
   ((.StepsPerMinute, .DoubledStepsPerMinute), .factor 2)]

/-- The keys of the `conversions` dict; `recurseFindConversionPath`
iterates over these (Python's `for transform in conversions.keys()`). -/
def convKeys : List (ASUnit × ASUnit) := conversions.map Prod.fst

/-- Dict lookup `conversions[transform]`. -/
def lookupConv (k : ASUnit × ASUnit) : Option Conv :=
  (conversions.find? (fun e => decide (e.1 = k))).map Prod.snd

/-- The depth-first search of `recurseFindConversionPath`: the outer
argument list is the remaining portion of the `for transform in
conversions.keys()` loop, `stack` is the path of edges used so far.
The `fuel` argument only bounds the recursion depth so that the
definition is structural; in the source the depth is bounded because
every nested call pushes a distinct edge of the 11-edge table onto
`stack`, so any fuel above 12 · 12 = 144 never runs out. -/
def findPath :
    ℕ → ASUnit → ASUnit → List (ASUnit × ASUnit) → List (ASUnit × ASUnit) →
    Option (List (ASUnit × ASUnit))
  | 0, _, _, _, _ => none
  | _ + 1, _, _, _, [] => none
  | fuel + 1, target, unit, stack, t :: rest =>
    if t.1 = unit ∨ t.2 = unit then
      if t ∈ stack then findPath fuel target unit stack rest
      else if t.1 = target ∨ t.2 = target then some (stack ++ [t])
      else
        match findPath fuel target (if t.2 = unit then t.1 else t.2)
            (stack ++ [t]) convKeys with
        | some result => some result
        | none => findPath fuel target unit stack rest
    else findPath fuel target unit stack rest

/-- `recurseFindConversionPath(unit, target, [])`.  The guard models the
`assert(unit != target)` at the head of the source function (an
`AssertionError`, i.e. failure, when the units coincide). -/
def recurseFindConversionPath (unit target : ASUnit) :
    Option (List (ASUnit × ASUnit)) :=
  if unit = target then none else findPath 200 target unit [] convKeys

/-- The edge-application loop at the end of `convertValue`: a scalar edge
multiplies when traversed forward and divides in reverse; a
function-pair edge applies the forward or inverse lambda.  (The source's
extra case of a bare function without an inverse never occurs: the only
non-scalar table entry is a tuple.) -/
def applyPath (value : ℚ) (from_units : ASUnit)
    (path : List (ASUnit × ASUnit)) : Option ℚ :=
  match path with
  | [] => some value
  | t :: rest =>
    match lookupConv t with
    | none => none
    | some (.factor c) =>
      if from_units = t.1 then applyPath (value * c) t.2 rest
      else applyPath (value / c) t.1 rest
    | some (.pair fwd inv) =>
      if from_units = t.1 then applyPath (fwd value) t.2 rest
      else applyPath (inv value) t.1 rest

/-- `ActivityStatistic.convertValue(value, from_units, to_units)`;
`none` models the `ValueError` raised when no conversion path exists. -/
def convertValue (value : ℚ) (from_units to_units : ASUnit) : Option ℚ :=
  match recurseFindConversionPath from_units to_units with
  | none => none
  | some path => applyPath value from_units path

/-- All unit tokens (used to enumerate the conversion graph). -/
def allUnits : List ASUnit :=
  [.Seconds, .Milliseconds, .Meters, .Kilometers, .Feet, .Yards, .Miles,
   .DegreesCelcius, .DegreesFahrenheit,
   .KilometersPerHour, .HectometersPerHour, .MetersPerSecond, .MilesPerHour,
   .HundredYardsPerHour,
   .BeatsPerMinute, .RevolutionsPerMinute, .StepsPerMinute,
   .DoubledStepsPerMinute,
   .Strides, .Kilocalories, .Kilojoules, .Watts]

/-- The ordered pairs of distinct units connected in the conversion
graph, i.e. those for which `recurseFindConversionPath` finds a path. -/
def connectedPairs : List (ASUnit × ASUnit) :=
  (allUnits.flatMap (fun a => allUnits.map (fun b => (a, b)))).filter
    (fun p => (recurseFindConversionPath p.1 p.2).isSome)

/-- One named field of an `ActivityStatistic` together with its per-field
sample count (the source keeps the six values as attributes and the six
counts in the `_samples` dict; pairing them per field is an isomorphic
regrouping). -/
structure StatField where
  val : Option ℚ
  samples : ℕ
deriving DecidableEq, Repr

/-- The six field names of an `ActivityStatistic`. -/
inductive StatFieldKey
  | Value | Average | Min | Max | Gain | Loss
deriving DecidableEq, Repr

/-- `ActivityStatistic`: six optional fields, their sample counts, and a
bound unit. -/
structure ActivityStatistic where
  Value : StatField
  Average : StatField
  Min : StatField
  Max : StatField
  Gain : StatField
  Loss : StatField
  Units : ASUnit
deriving DecidableEq, Repr

/-- Field access `stat.__dict__[key]` (value) paired with
`stat._samples[key]`. -/
def statGet (s : ActivityStatistic) : StatFieldKey → StatField
  | .Value => s.Value
  | .Average => s.Average
  | .Min => s.Min
  | .Max => s.Max
  | .Gain => s.Gain
  | .Loss => s.Loss

/-- Field assignment on an `ActivityStatistic`. -/
def statSet (s : ActivityStatistic) : StatFieldKey → StatField → ActivityStatistic
  | .Value, f => { s with Value := f }
  | .Average, f => { s with Average := f }
  | .Min, f => { s with Min := f }
  | .Max, f => { s with Max := f }
  | .Gain, f => { s with Gain := f }
  | .Loss, f => { s with Loss := f }

/-- The `ActivityStatistic.__init__` constructor: each sample count is 1
when the corresponding argument is given, 0 otherwise. -/
def initStat (units : ASUnit) (value avg mn mx gain loss : Option ℚ) :
    ActivityStatistic :=
  { Value := ⟨value, if value.isSome then 1 else 0⟩
    Average := ⟨avg, if avg.isSome then 1 else 0⟩
    Min := ⟨mn, if mn.isSome then 1 else 0⟩
    Max := ⟨mx, if mx.isSome then 1 else 0⟩
    Gain := ⟨gain, if gain.isSome then 1 else 0⟩
    Loss := ⟨loss, if loss.isSome then 1 else 0⟩
    Units := units }

/-- Conversion of one optional field value (`convertUnitsInDict` skips
`None` entries); conversion failure (a raised `ValueError`) is `none`. -/
def convField (f : StatField) (a b : ASUnit) : Option StatField :=
  match f.val with
  | none => some f
  | some v => (convertValue v a b).map (fun w => ⟨some w, f.samples⟩)

/-- `ActivityStatistic.asUnits(units)`: identity when the units already
match, otherwise a converted copy.  (The source copy shares its
`_samples` dict with the original; that aliasing is modelled explicitly
by the `StatRef`/`SampleStore` development below, while this pure value
model carries the counts along.) -/
def ActivityStatistic.asUnits (st : ActivityStatistic) (units : ASUnit) :
    Option ActivityStatistic :=
  if units = st.Units then some st
  else do
    let v ← convField st.Value st.Units units
    let av ← convField st.Average st.Units units
    let mn ← convField st.Min st.Units units
    let mx ← convField st.Max st.Units units
    let g ← convField st.Gain st.Units units
    let l ← convField st.Loss st.Units units
    some { Value := v, Average := av, Min := mn, Max := mx, Gain := g,
           Loss := l, Units := units }

/-- The per-item body of `ActivityStatistic.coalesceWith`: returns the
updated `self` field and the updated `other` field (the source first
bumps a zero sample count on the operand's side to 1). -/
def coalesceField (mine other : StatField) : StatField × StatField :=
  match other.val with
  | none => (mine, other)
  | some ov =>
    let osamp : ℕ := if other.samples = 0 then 1 else other.samples
    let other2 : StatField := ⟨some ov, osamp⟩
    match mine.val with
    | none => (other2, other2)
    | some mv =>
      (⟨some (mv + (ov - mv) / ((mine.samples : ℚ) + 1 / (osamp : ℚ))),
        mine.samples + osamp⟩, other2)

/-- `ActivityStatistic.coalesceWith(stat)` (value part; the write it
performs into the operand's shared `_samples` dict is modelled by
`StatRef.coalesceWith` below).  `none` models the `ValueError` raised by
the unit conversion of the operand. -/
def ActivityStatistic.coalesceWith (s o : ActivityStatistic) :
    Option ActivityStatistic :=
  (o.asUnits s.Units).map fun stat =>
    { Value := (coalesceField s.Value stat.Value).1
      Max := (coalesceField s.Max stat.Max).1
      Min := (coalesceField s.Min stat.Min).1
      Average := (coalesceField s.Average stat.Average).1
      Gain := (coalesceField s.Gain stat.Gain).1
      Loss := (coalesceField s.Loss stat.Loss).1
      Units := s.Units }

/-- The per-item body of the summable part of `sumWith` (`Value`, `Gain`,
`Loss`): add when both present (fresh sample count 1), copy with the
operand's count when only the operand has it. -/
def sumField (mine other : StatField) : StatField :=
  match other.val with
  | none => mine
  | some ov =>
    match mine.val with
    | some mv => ⟨some (mv + ov), 1⟩
    | none => ⟨some ov, other.samples⟩

/-- The `Max` part of `sumWith`: take the operand's field (value and
sample count) when `self` has none or the operand's value is larger. -/
def maxField (mine other : StatField) : StatField :=
  match mine.val with
  | none => other
  | some mv =>
    match other.val with
    | some ov => if mv < ov then other else mine
    | none => mine

/-- The `Min` part of `sumWith`: dual to `maxField`. -/
def minField (mine other : StatField) : StatField :=
  match mine.val with
  | none => other
  | some mv =>
    match other.val with
    | some ov => if ov < mv then other else mine
    | none => mine

/-- `ActivityStatistic.sumWith(stat)`: convert the operand, add the
summable items, clear `Average`, and take the more extreme `Max`/`Min`. -/
def ActivityStatistic.sumWith (s o : ActivityStatistic) :
    Option ActivityStatistic :=
  (o.asUnits s.Units).map fun stat =>
    { Value := sumField s.Value stat.Value
      Gain := sumField s.Gain stat.Gain
      Loss := sumField s.Loss stat.Loss
      Average := ⟨none, 0⟩
      Max := maxField s.Max stat.Max
      Min := minField s.Min stat.Min
      Units := s.Units }

/-- `ActivityStatistics`: the fixed collection of named statistics (the
source's `_statKeyList` has these twelve entries). -/
structure ActivityStatistics where
  Distance : ActivityStatistic
  TimerTime : ActivityStatistic
  MovingTime : ActivityStatistic
  Energy : ActivityStatistic
  Speed : ActivityStatistic
  Elevation : ActivityStatistic
  HR : ActivityStatistic
  Cadence : ActivityStatistic
  RunCadence : ActivityStatistic
  Strides : ActivityStatistic
  Temperature : ActivityStatistic
  Power : ActivityStatistic
deriving DecidableEq, Repr

/-- `ActivityStatistics()` with all constructor arguments left at `None`:
each statistic gets its metric-specific default unit. -/
def defaultStats : ActivityStatistics :=
  { Distance := initStat .Meters none none none none none none
    TimerTime := initStat .Seconds none none none none none none
    MovingTime := initStat .Seconds none none none none none none
    Energy := initStat .Kilocalories none none none none none none
    Speed := initStat .KilometersPerHour none none none none none none
    Elevation := initStat .Meters none none none none none none
    HR := initStat .BeatsPerMinute none none none none none none
    Cadence := initStat .RevolutionsPerMinute none none none none none none
    RunCadence := initStat .StepsPerMinute none none none none none none
    Strides := initStat .Strides none none none none none none
    Temperature := initStat .DegreesCelcius none none none none none none
    Power := initStat .Watts none none none none none none }

/-- `ActivityStatistic.__eq__`: units and the six values (sample counts
are not compared). -/
def statEqPy (a b : ActivityStatistic) : Bool :=
  a.Units = b.Units ∧ a.Value.val = b.Value.val ∧ a.Average.val = b.Average.val
    ∧ a.Max.val = b.Max.val ∧ a.Min.val = b.Min.val ∧ a.Gain.val = b.Gain.val
    ∧ a.Loss.val = b.Loss.val

/-- `ActivityStatistics.__eq__`: all twelve statistics must compare
equal. -/
def statsEqPy (a b : ActivityStatistics) : Bool :=
  statEqPy a.Distance b.Distance && statEqPy a.TimerTime b.TimerTime
    && statEqPy a.MovingTime b.MovingTime && statEqPy a.Energy b.Energy
    && statEqPy a.Speed b.Speed && statEqPy a.Elevation b.Elevation
    && statEqPy a.HR b.HR && statEqPy a.Cadence b.Cadence
    && statEqPy a.RunCadence b.RunCadence && statEqPy a.Strides b.Strides
    && statEqPy a.Temperature b.Temperature && statEqPy a.Power b.Power

/-- The inner per-field step of `_cleanStatsObj`: if the converted copy's
field value lies outside the range, null the original's field and zero
its sample count. -/
def cleanField (st conv : ActivityStatistic) (f : StatFieldKey) (lo hi : ℚ) :
    ActivityStatistic :=
  match (statGet conv f).val with
  | none => st
  | some v => if v < lo ∨ v > hi then statSet st f ⟨none, 0⟩ else st

/-- The `checkFields` scan `["Average", "Max", "Min", "Value"]` of
`_cleanStatsObj`, reading the converted copy `conv` and mutating the
original `st`. -/
def cleanFields (st conv : ActivityStatistic) (lo hi : ℚ) :
    ActivityStatistic :=
  cleanField (cleanField (cleanField (cleanField st conv .Average lo hi)
    conv .Max lo hi) conv .Min lo hi) conv .Value lo hi

/-- One `ranges` entry of `_cleanStatsObj` applied to one statistic:
convert to the check unit, then scan the `checkFields`.  `none` models a
conversion `ValueError`. -/
def cleanStat (st : ActivityStatistic) (u : ASUnit) (lo hi : ℚ) :
    Option ActivityStatistic :=
  (st.asUnits u).map fun conv => cleanFields st conv lo hi

/-- `_cleanStatsObj(stats)`: the ten `ranges` entries in the source
dict's insertion order. -/
def cleanStatsObj (ss : ActivityStatistics) : Option ActivityStatistics := do
  let pw ← cleanStat ss.Power .Watts 0 5000
  let ss := { ss with Power := pw }
  let sp ← cleanStat ss.Speed .KilometersPerHour 0 150
  let ss := { ss with Speed := sp }
  let el ← cleanStat ss.Elevation .Meters (-500) 8850
  let ss := { ss with Elevation := el }
  let hr ← cleanStat ss.HR .BeatsPerMinute 15 300
  let ss := { ss with HR := hr }
  let cad ← cleanStat ss.Cadence .RevolutionsPerMinute 0 255
  let ss := { ss with Cadence := cad }
  let rcad ← cleanStat ss.RunCadence .StepsPerMinute 0 255
  let ss := { ss with RunCadence := rcad }
  let str ← cleanStat ss.Strides .Strides 1 9999999
  let ss := { ss with Strides := str }
  let tmp ← cleanStat ss.Temperature .DegreesCelcius (-62) 50
  let ss := { ss with Temperature := tmp }
  let en ← cleanStat ss.Energy .Kilocalories 1 65535
  let ss := { ss with Energy := en }
  let di ← cleanStat ss.Distance .Kilometers 0 1000
  let ss := { ss with Distance := di }
  pure ss

/-- A Python `datetime`: `wall` is the wall-clock reading linearised to
microseconds (so the `microsecond` attribute is `wall % 1000000` and the
`strftime("%Y-%m-%d %H:%M:%S")` rendering is an injective function of
`wall / 1000000`); `tzOffset` is the attached timezone's UTC offset in
minutes, `none` for a naive datetime. -/
structure DateTime where
  wall : Int
  tzOffset : Option Int
deriving DecidableEq, Repr

/-- `datetime.astimezone(tz)` where the target timezone `tz` maps a UTC
instant (in microseconds) to its UTC offset in minutes (constant for
`pytz.FixedOffset`, instant-dependent for named zones).  A naive
datetime is interpreted in the system-local timezone `localOffset`
(Python 3 semantics). -/
def DateTime.astimezone (d : DateTime) (tz : Int → Int) (localOffset : Int) :
    DateTime :=
  match d.tzOffset with
  | some z =>
    let instant := d.wall - z * 60000000
    ⟨instant + tz instant * 60000000, some (tz instant)⟩
  | none =>
    let instant := d.wall - localOffset * 60000000
    ⟨instant + tz instant * 60000000, some (tz instant)⟩

/-- `Activity.CalculateUID()`: `none` when the start time is absent;
otherwise strip microseconds, convert into the activity timezone when
one is set, and hash the `"%Y-%m-%d %H:%M:%S"` rendering (no timezone
qualifier).  The md5 digest of that rendering is a fixed deterministic
function of the wall-clock second `wall / 1000000`, and the 19-character
renderings of distinct seconds are distinct, so the UID is modelled as
that wall-clock second. -/
def calculateUID (localOffset : Int) (startTime : Option DateTime)
    (tz : Option (Int → Int)) : Option Int :=
  match startTime with
  | none => none
  | some st =>
    let rounded : DateTime := ⟨st.wall - st.wall % 1000000, st.tzOffset⟩
    let rounded : DateTime :=
      match tz with
      | some z => rounded.astimezone z localOffset
      | none => rounded
    some (rounded.wall / 1000000)

/-- The local wall-clock second the UID hash input renders: the start
time truncated to the second and converted into the activity timezone. -/
def localWallSecond (st : DateTime) (tz : Int → Int) (localOffset : Int) :
    Int :=
  ((DateTime.mk (st.wall - st.wall % 1000000) st.tzOffset).astimezone tz
    localOffset).wall / 1000000

/-- Subtraction of two datetimes, in microseconds (`total_seconds()` is
this over 10⁶): wall difference for two naive operands, instant
difference for two aware ones, `none` for the mixed `TypeError`. -/
def dtSub (a b : DateTime) : Option Int :=
  match a.tzOffset, b.tzOffset with
  | none, none => some (a.wall - b.wall)
  | some za, some zb =>
    some ((a.wall - za * 60000000) - (b.wall - zb * 60000000))
  | _, _ => none

/-- A resolved timezone object: `pytz.FixedOffset(minutes)` or
`pytz.timezone(name)`. -/
inductive TZVal
  | fixedOffset (minutes : Int)
  | named (name : String)
deriving DecidableEq, Repr

/-- A value stored in / returned by the external timezone cache and
`TZLookup`: a named timezone identifier or a number. -/
inductive TZCacheVal
  | str (s : String)
  | num (n : Int)
deriving DecidableEq, Repr

/-- `Location`: optional latitude, longitude, altitude. -/
structure Location where
  Latitude : Option ℚ
  Longitude : Option ℚ
  Altitude : Option ℚ
deriving DecidableEq, Repr

/-- `WaypointType` tags. -/
inductive WaypointType
  | Start | Regular | Pause | Resume | End
deriving DecidableEq, Repr

/-- `Waypoint` (the source attribute `Type` is called `ptType` here,
after the constructor parameter, because `Type` is reserved in Lean). -/
structure Waypoint where
  Timestamp : Option DateTime
  ptType : WaypointType
  Location : Option Location
  HR : Option ℚ
  Calories : Option ℚ
  Power : Option ℚ
  Temp : Option ℚ
  Cadence : Option ℚ
  RunCadence : Option ℚ
  Distance : Option ℚ
  Speed : Option ℚ
deriving DecidableEq, Repr

/-- A waypoint with only a type and a location (remaining readings at
their `None` constructor defaults). -/
def mkWaypoint (t : WaypointType) (loc : Option Location) : Waypoint :=
  { Timestamp := none, ptType := t, Location := loc, HR := none,
    Calories := none, Power := none, Temp := none, Cadence := none,
    RunCadence := none, Distance := none, Speed := none }

/-- `Lap` (the intensity and trigger tags are not read by any verified
operation and are omitted). -/
structure Lap where
  StartTime : Option DateTime
  EndTime : Option DateTime
  Stats : ActivityStatistics
  Waypoints : List Waypoint
deriving DecidableEq, Repr

/-- `Activity` (name, notes, privacy flag, device and prerendered
formats are carried opaquely by the source and are omitted; `Type` is
called `actType` after the constructor parameter). -/
structure Activity where
  StartTime : Option DateTime
  EndTime : Option DateTime
  actType : String
  Laps : List Lap
  Stats : ActivityStatistics
  TZ : Option TZVal
  FallbackTZ : Option TZVal
  Stationary : Option Bool
deriving Repr

/-- `Activity.GetFirstWaypointWithLocation`: the source's `break` leaves
only the inner loop, so each lap that contains a waypoint with both
coordinates overwrites `loc_wp` with its own first such waypoint — the
returned location is the first qualifying waypoint of the *last* lap
that has one. -/
def getFirstWaypointWithLocation (a : Activity) : Option Location :=
  a.Laps.foldl
    (fun loc_wp lap =>
      match lap.Waypoints.find? (fun wp =>
        match wp.Location with
        | some l => l.Latitude.isSome && l.Longitude.isSome
        | none => false) with
      | some wp => wp.Location
      | none => loc_wp)
    none

/-- The body of `Activity.CalculateTZ` past the memoisation check.
`cacheGet` is the external cache's get-by-coordinates
(`cachedb.tz_cache.find_one`), `lookup` the external `TZLookup`
collaborator (its result is also inserted into the cache, a side effect
with no bearing on the returned timezone).  Error strings are the
source's exception messages (apostrophes dropped). -/
def calculateTZBody (a : Activity) (loc : Option Location)
    (cacheGet : Option ℚ → Option ℚ → Option TZCacheVal)
    (lookup : Option ℚ → Option ℚ → TZCacheVal) : Except String TZVal :=
  let loc2 : Option Location :=
    match loc with
    | some l => some l
    | none => getFirstWaypointWithLocation a
  if loc = none ∧ loc2 = none ∧ a.FallbackTZ = none then
    .error "Cant find TZ without a waypoint with a location, or a fallback TZ"
  else
    match loc2 with
    | none =>
      match a.FallbackTZ with
      | none =>
        .error "Cant find TZ without a waypoint with a location, specified location, or fallback TZ"
      | some ftz => .ok ftz
    | some l =>
      let cachedTZ : TZCacheVal :=
        match cacheGet l.Latitude l.Longitude with
        | some v => v
        | none => lookup l.Latitude l.Longitude
      match cachedTZ with
      | .num n => .ok (TZVal.fixedOffset (n * 60))
      | .str s => .ok (TZVal.named s)

/-- `Activity.CalculateTZ(loc, recalculate)`: return the memoised
timezone unless `recalculate` is set, otherwise resolve.  The source
also assigns the result to `self.TZ`; the returned value is what the
claims are about. -/
def calculateTZ (a : Activity) (loc : Option Location) (recalculate : Bool)
    (cacheGet : Option ℚ → Option ℚ → Option TZCacheVal)
    (lookup : Option ℚ → Option ℚ → TZCacheVal) : Except String TZVal :=
  match a.TZ, recalculate with
  | some tz, false => .ok tz
  | some _, true => calculateTZBody a loc cacheGet lookup
  | none, _ => calculateTZBody a loc cacheGet lookup

/-- Latitude out of range (`lat is not None and (lat > 90 or lat < -90)`). -/
def latOut (l : Option ℚ) : Bool :=
  match l with
  | some v => v > 90 || v < -90
  | none => false

/-- Longitude out of range. -/
def lonOut (l : Option ℚ) : Bool :=
  match l with
  | some v => v > 180 || v < -180
  | none => false

/-- The running state of `CheckSanity`'s per-waypoint scan. -/
structure ScanState where
  altLow : Option ℚ
  altHigh : Option ℚ
  pointsWithLocation : ℕ
  unpausedPoints : ℕ
deriving Repr

/-- The per-waypoint body of `CheckSanity`'s scan loop. -/
def scanWaypoint (s : ScanState) (wp : Waypoint) : Except String ScanState :=
  let s := if wp.ptType ≠ WaypointType.Pause then
    { s with unpausedPoints := s.unpausedPoints + 1 } else s
  match wp.Location with
  | none => .ok s
  | some loc =>
    if loc.Latitude = some 0 ∧ loc.Longitude = some 0 then
      .error "Invalid lat/lng"
    else if latOut loc.Latitude || lonOut loc.Longitude then
      .error "Out of range lat/lng"
    else
      let s :=
        match loc.Altitude, s.altLow with
        | some alt, none => { s with altLow := some alt }
        | some alt, some lo =>
          if alt < lo then { s with altLow := some alt } else s
        | none, _ => s
      let s :=
        match loc.Altitude, s.altHigh with
        | some alt, none => { s with altHigh := some alt }
        | some alt, some hi =>
          if alt > hi then { s with altHigh := some alt } else s
        | none, _ => s
      let s := if loc.Latitude ≠ none ∧ loc.Longitude ≠ none then
        { s with pointsWithLocation := s.pointsWithLocation + 1 } else s
      .ok s

/-- The per-lap body of `CheckSanity`'s scan loop. -/
def scanLap (s : ScanState) (lap : Lap) : Except String ScanState :=
  if lap.StartTime = none then .error "Lap has no start time"
  else if lap.EndTime = none then .error "Lap has no end time"
  else lap.Waypoints.foldlM scanWaypoint s

/-- `Activity.CheckSanity()`, with `datetime.now()` passed in as `now`
(naive wall-clock microseconds).  Error strings are the source's
exception messages; crashes the source would raise on missing
prerequisites (`AttributeError` on a `None` start time, `TypeError` on
mixed naive/aware subtraction, a conversion `ValueError`) surface as
distinct errors too. -/
def checkSanity (now : Int) (a : Activity) : Except String Unit := do
  if a.Laps.length = 0 then throw "No laps"
  let wptCt := (a.Laps.map (fun l => l.Waypoints.length)).sum
  match a.Stationary with
  | none => throw "Activity is undecidedly stationary"
  | some stationary =>
    if !stationary then
      if wptCt = 0 then throw "Exactly 0 waypoints"
      if wptCt = 1 then throw "Only 1 waypoint"
    match a.Stats.Distance.Value.val with
    | some _ =>
      match a.Stats.Distance.asUnits .Meters with
      | none => throw "No conversion"
      | some conv =>
        match conv.Value.val with
        | some dv =>
          if dv > 1000 * 1000 then throw "Exceedingly long activity (distance)"
        | none => pure ()
    | none => pure ()
    match a.StartTime with
    | none => throw "AttributeError: NoneType has no attribute replace"
    | some st =>
      if st.wall > now + 5 * 86400000000 then
        throw "Activity is from the future"
      -- datetime(1995, 1, 1) is 788918400 s past the epoch
      if st.wall < 788918400000000 then
        throw "Activity falls implausibly far in the past"
      match a.EndTime with
      | some et =>
        if et.wall > now + 10 * 86400000000 then
          throw "Activity ends in the future"
      | none => pure ()
      match a.EndTime with
      | some et =>
        match dtSub et st with
        | none => throw "TypeError: cannot subtract naive and aware datetimes"
        | some d =>
          if d < 0 then throw "Event finishes before it starts"
          if d = 0 then throw "0-duration activity"
          if d > 60 * 60 * 24 * 5 * 1000000 then
            throw "Exceedingly long activity (time)"
      | none => pure ()
      match a.Laps with
      | [lap] =>
        if !(statsEqPy lap.Stats a.Stats) then
          throw "Activity with 1 lap has mismatching statistics between activity and lap"
      | _ => pure ()
      let st ← a.Laps.foldlM scanLap ⟨none, none, 0, 0⟩
      if st.unpausedPoints = 1 then
        throw "0 < n <= 1 unpaused points in activity"
      if st.pointsWithLocation = 1 then
        throw "0 < n <= 1 geographic points in activity"
      match st.altLow with
      | some lo =>
        if st.altLow = st.altHigh ∧ lo = 0 then
          throw "Invalid altitudes / no change from 0"
      | none => pure ()
      pure ()

/-- An `ActivityStatistic` whose `_samples` dict is held by reference:
`samplesRef` names a dict in a `SampleStore`.  This refines the pure
model above to expose the dict aliasing of `asUnits` (the converted copy
receives the *same* `_samples` object: `newStat._samples =
self._samples`). -/
structure StatRef where
  Value : Option ℚ
  Average : Option ℚ
  Min : Option ℚ
  Max : Option ℚ
  Gain : Option ℚ
  Loss : Option ℚ
  samplesRef : ℕ
  Units : ASUnit

/-- The heap of `_samples` dicts, addressed by reference and field. -/
def SampleStore := ℕ → StatFieldKey → ℕ

/-- Write one entry of one `_samples` dict. -/
def setSample (st : SampleStore) (r : ℕ) (f : StatFieldKey) (n : ℕ) :
    SampleStore :=
  fun r2 f2 => if r2 = r ∧ f2 = f then n else st r2 f2

/-- Value-field access on a `StatRef`. -/
def refGet (s : StatRef) : StatFieldKey → Option ℚ
  | .Value => s.Value
  | .Average => s.Average
  | .Min => s.Min
  | .Max => s.Max
  | .Gain => s.Gain
  | .Loss => s.Loss

/-- Value-field assignment on a `StatRef`. -/
def refSet (s : StatRef) : StatFieldKey → Option ℚ → StatRef
  | .Value, v => { s with Value := v }
  | .Average, v => { s with Average := v }
  | .Min, v => { s with Min := v }
  | .Max, v => { s with Max := v }
  | .Gain, v => { s with Gain := v }
  | .Loss, v => { s with Loss := v }

/-- Conversion of one optional value field in the reference model
(`convertUnitsInDict` skips `None`; failure is a raised `ValueError`). -/
def convOptVal (v : Option ℚ) (a b : ASUnit) : Option (Option ℚ) :=
  match v with
  | none => some none
  | some x => (convertValue x a b).map some

/-- `asUnits` in the reference model: a converted copy keeps the
original's `samplesRef` — the aliasing under scrutiny
(`newStat._samples = self._samples`). -/
def StatRef.asUnits (st : StatRef) (units : ASUnit) : Option StatRef :=
  if units = st.Units then some st
  else do
    let v ← convOptVal st.Value st.Units units
    let av ← convOptVal st.Average st.Units units
    let mn ← convOptVal st.Min st.Units units
    let mx ← convOptVal st.Max st.Units units
    let g ← convOptVal st.Gain st.Units units
    let l ← convOptVal st.Loss st.Units units
    some { Value := v, Average := av, Min := mn, Max := mx, Gain := g,
           Loss := l, samplesRef := st.samplesRef, Units := units }

/-- One iteration of the `for item in items` loop of `coalesceWith`, in
the reference model: `stat` is the (possibly converted) operand, whose
`samplesRef` is the operand's own dict; writes happen in source order —
bump the operand's zero count to 1, then update `self`'s value and
count. -/
def coalStep (stat : StatRef) (f : StatFieldKey) (acc : StatRef × SampleStore) :
    StatRef × SampleStore :=
  let self := acc.1
  let store := acc.2
  match refGet stat f with
  | none => (self, store)
  | some ov =>
    let store := setSample store stat.samplesRef f
      (if store stat.samplesRef f = 0 then 1 else store stat.samplesRef f)
    match refGet self f with
    | none =>
      (refSet self f (some ov),
       setSample store self.samplesRef f (store stat.samplesRef f))
    | some mv =>
      let ms : ℕ := store self.samplesRef f
      let os : ℕ := store stat.samplesRef f
      (refSet self f (some (mv + (ov - mv) / ((ms : ℚ) + 1 / (os : ℚ)))),
       setSample store self.samplesRef f (ms + os))

/-- The `items` list of `coalesceWith`, in source order. -/
def coalItems : List StatFieldKey :=
  [.Value, .Max, .Min, .Average, .Gain, .Loss]

/-- `ActivityStatistic.coalesceWith(stat)` in the reference model,
iterating `items` in source order and threading the sample-dict heap. -/
def StatRef.coalesceWith (self other : StatRef) (store : SampleStore) :
    Option (StatRef × SampleStore) :=
  (other.asUnits self.Units).map fun stat =>
    coalItems.foldl (fun acc item => coalStep stat item acc) (self, store)

/-- The `for lap in self.Laps` loop of `Activity.CleanStats()`: clean
each lap's statistics set in place. -/
def cleanLaps : List Lap → Option (List Lap)
  | [] => some []
  | lap :: rest => do
    let ls ← cleanStatsObj lap.Stats
    let rest2 ← cleanLaps rest
    some ({ lap with Stats := ls } :: rest2)

/-- `Activity.CleanStats()`: apply `_cleanStatsObj` to the activity's
own statistics and to every lap's statistics. -/
def cleanStats (a : Activity) : Option Activity := do
  let s ← cleanStatsObj a.Stats
  let laps ← cleanLaps a.Laps
  pure { a with Stats := s, Laps := laps }

/-- Every statistic carries the default unit its metric receives from
the `ActivityStatistics.__init__` constructor. -/
def DefaultStatsUnits (ss : ActivityStatistics) : Prop :=
  ss.Distance.Units = .Meters ∧ ss.TimerTime.Units = .Seconds ∧
  ss.MovingTime.Units = .Seconds ∧ ss.Energy.Units = .Kilocalories ∧
  ss.Speed.Units = .KilometersPerHour ∧ ss.Elevation.Units = .Meters ∧
  ss.HR.Units = .BeatsPerMinute ∧ ss.Cadence.Units = .RevolutionsPerMinute ∧
  ss.RunCadence.Units = .StepsPerMinute ∧ ss.Strides.Units = .Strides ∧
  ss.Temperature.Units = .DegreesCelcius ∧ ss.Power.Units = .Watts

instance (ss : ActivityStatistics) : Decidable (DefaultStatsUnits ss) := by
  unfold DefaultStatsUnits; infer_instance

/-- Stated from the specification (claim C8): the outcome `CleanStats`
must produce for one checked field — `conv` maps the stored value into
the check unit; a converted value outside `[lo, hi]` nulls the field and
zeroes its sample count, otherwise the field is untouched. -/
def CleanedFieldOutcome (lo hi : ℚ) (conv : ℚ → ℚ) (orig res : StatField) :
    Prop :=
  (∀ v, orig.val = some v → (conv v < lo ∨ conv v > hi) → res = ⟨none, 0⟩) ∧
  (∀ v, orig.val = some v → ¬(conv v < lo ∨ conv v > hi) → res = orig) ∧
  (orig.val = none → res = orig)

/-- Stated from the specification (claim C8): the outcome for one whole
statistic — `Value`, `Average`, `Min`, `Max` are checked, `Gain` and
`Loss` (and the unit) are never touched. -/
def CleanedStatOutcome (lo hi : ℚ) (conv : ℚ → ℚ)
    (orig res : ActivityStatistic) : Prop :=
  CleanedFieldOutcome lo hi conv (statGet orig .Value) (statGet res .Value) ∧
  CleanedFieldOutcome lo hi conv (statGet orig .Average)
    (statGet res .Average) ∧
  CleanedFieldOutcome lo hi conv (statGet orig .Min) (statGet res .Min) ∧
  CleanedFieldOutcome lo hi conv (statGet orig .Max) (statGet res .Max) ∧
  statGet res .Gain = statGet orig .Gain ∧
  statGet res .Loss = statGet orig .Loss ∧ res.Units = orig.Units

/-- Stated from the specification (claim C8): the outcome for a whole
statistics set — the ten listed metrics with their units and inclusive
ranges (`Distance` is checked in kilometres, i.e. after dividing the
stored metres by 1000; every other metric's stored unit is already its
check unit), with `TimerTime` and `MovingTime` untouched. -/
def CleanedStatsOutcome (orig res : ActivityStatistics) : Prop :=
  CleanedStatOutcome 0 5000 id orig.Power res.Power ∧
  CleanedStatOutcome 0 150 id orig.Speed res.Speed ∧
  CleanedStatOutcome (-500) 8850 id orig.Elevation res.Elevation ∧
  CleanedStatOutcome 15 300 id orig.HR res.HR ∧
  CleanedStatOutcome 0 255 id orig.Cadence res.Cadence ∧
  CleanedStatOutcome 0 255 id orig.RunCadence res.RunCadence ∧
  CleanedStatOutcome 1 9999999 id orig.Strides res.Strides ∧
  CleanedStatOutcome (-62) 50 id orig.Temperature res.Temperature ∧
  CleanedStatOutcome 1 65535 id orig.Energy res.Energy ∧
  CleanedStatOutcome 0 1000 (fun v => v / 1000) orig.Distance res.Distance ∧
  res.TimerTime = orig.TimerTime ∧ res.MovingTime = orig.MovingTime

/-- A naive `datetime` at `w` microseconds of wall clock. -/
def dtNaive (w : Int) : DateTime := ⟨w, none⟩

/-- 2000-01-01 00:00:00 as wall-clock microseconds. -/
def t2000 : Int := 946684800000000

/-- One day in microseconds. -/
def usDay : Int := 86400000000

/-- A lap with default statistics. -/
def mkLap (s e : Option DateTime) (wps : List Waypoint) : Lap :=
  { StartTime := s, EndTime := e, Stats := defaultStats, Waypoints := wps }

/-- A bare activity skeleton used by the concrete test inputs. -/
def mkActivity (s e : Option DateTime) (laps : List Lap)
    (stationary : Option Bool) : Activity :=
  { StartTime := s, EndTime := e, actType := "Other", Laps := laps,
    Stats := defaultStats, TZ := none, FallbackTZ := none,
    Stationary := stationary }

/-- C1 input: one lap whose single waypoint sits at (10, 20); timezone
unresolved, no fallback. -/
def tzAct : Activity :=
  mkActivity none none
    [mkLap none none [mkWaypoint .Regular (some ⟨some 10, some 20, none⟩)]]
    none

/-- A cache that stores the numeric value 1 for every coordinate. -/
def cgNum1 : Option ℚ → Option ℚ → Option TZCacheVal := fun _ _ =>
  some (.num 1)

/-- A lookup collaborator (never consulted by the C1/C2 inputs, whose
cache always hits). -/
def lkStr : Option ℚ → Option ℚ → TZCacheVal := fun _ _ => .str "x"

/-- C2 failing input: two laps, each with a waypoint that has both
coordinates — lap 1 at (10, 10), lap 2 at (20, 20). -/
def lap2Act : Activity :=
  mkActivity none none
    [mkLap none none [mkWaypoint .Regular (some ⟨some 10, some 10, none⟩)],
     mkLap none none [mkWaypoint .Regular (some ⟨some 20, some 20, none⟩)]]
    none

/-- A cache distinguishing the two coordinates of `lap2Act`. -/
def cgByLat : Option ℚ → Option ℚ → Option TZCacheVal := fun la _ =>
  if la = some (10 : ℚ) then some (.str "Lap1TZ") else some (.str "Lap2TZ")

/-- C7 input: start equals end (everything else sane). -/
def actZeroDur : Activity :=
  mkActivity (some (dtNaive t2000)) (some (dtNaive t2000))
    [mkLap (some (dtNaive t2000)) (some (dtNaive t2000)) []] (some true)

/-- C7 input: a waypoint located at exactly (0, 0). -/
def actZeroZero : Activity :=
  mkActivity (some (dtNaive t2000)) (some (dtNaive (t2000 + usDay)))
    [mkLap (some (dtNaive t2000)) (some (dtNaive (t2000 + usDay)))
      [mkWaypoint .Regular (some ⟨some 0, some 0, none⟩),
       mkWaypoint .Regular (some ⟨some 1, some 1, none⟩)]] (some false)

/-- C7 input: a six-day activity. -/
def actSixDays : Activity :=
  mkActivity (some (dtNaive t2000)) (some (dtNaive (t2000 + 6 * usDay)))
    [mkLap (some (dtNaive t2000)) (some (dtNaive (t2000 + 6 * usDay))) []]
    (some true)

/-- C7 input: a non-stationary activity with exactly one waypoint. -/
def actOneWaypoint : Activity :=
  mkActivity (some (dtNaive t2000)) (some (dtNaive (t2000 + usDay)))
    [mkLap (some (dtNaive t2000)) (some (dtNaive (t2000 + usDay)))
      [mkWaypoint .Regular (some ⟨some 1, some 1, none⟩)]] (some false)

/-- C8 witness input: an HR statistic with `Average = 400` (and a sane
`Max = 100`). -/
def actHR400 : Activity :=
  { mkActivity none none [] none with
    Stats := { defaultStats with
      HR := initStat .BeatsPerMinute none (some 400) none (some 100)
        none none } }

/-- C10 witness: `self` in metres holding `Value = 1` with dict 0. -/
def selfRefW : StatRef :=
  { Value := some 1, Average := none, Min := none, Max := none, Gain := none,
    Loss := none, samplesRef := 0, Units := .Meters }

/-- C10 witness: the operand in kilometres holding `Value = 2` with
dict 1, whose recorded `Value` count is 0. -/
def otherRefW : StatRef :=
  { Value := some 2, Average := none, Min := none, Max := none, Gain := none,
    Loss := none, samplesRef := 1, Units := .Kilometers }

/-- C10 witness: the all-zero sample heap. -/
def storeW : SampleStore := fun _ _ => 0

instance : Inhabited StatRef := ⟨selfRefW⟩

instance : Inhabited SampleStore := ⟨storeW⟩

/-- The falsy/`Other` filter at the head of
`ActivityType.PickMostSpecific` (a falsy entry is `None` or the empty
string, both modelled as `""`). -/
def filteredTypes (types : List String) : List String :=
  types.filter (fun x => !(x == "" || x == "Other"))

/-- The first `_hierarchy` family (right-most entry most specific). -/
def fam1 : List String := ["Cycling", "MtnBiking"]

/-- The second `_hierarchy` family. -/
def fam2 : List String := ["Running", "Walking", "Hiking"]

/-- `ActivityType._hierarchy`. -/
def hierarchy : List (List String) := [fam1, fam2]

/-- The inner loop of `PickMostSpecific`: scan the candidates, keeping
the one with the larger index in the family. -/
def pickInner (definition : List String) (ts : List String) (ms : String) :
    String :=
  ts.foldl
    (fun m a => if definition.indexOf m < definition.indexOf a then a else m)
    ms

/-- One `for definition in ActivityType._hierarchy` iteration of
`PickMostSpecific`: run the inner loop only when every remaining type
lies in the family (compared by filtered length, as in the source). -/
def pickStep (ts : List String) (ms : String) (definition : List String) :
    String :=
  if (ts.filter (fun x => decide (x ∈ definition))).length = ts.length then
    pickInner definition ts ms
  else ms

/-- `ActivityType.PickMostSpecific(types)`. -/
def pickMostSpecific (types : List String) : String :=
  match filteredTypes types with
  | [] => "Other"
  | t :: rest => hierarchy.foldl (pickStep (t :: rest)) t

/-- Claim C7: `CheckSanity` applies its rules in order and aborts at the
first violated rule with a distinct validation error; in particular it
rejects a zero-duration activity, a waypoint location of exactly (0,0),
a six-day activity, and a single-waypoint non-stationary activity, each
with its own error message. -/
theorem c7_checkSanity_first_violation :
    checkSanity t2000 actZeroDur = .error "0-duration activity" ∧
    checkSanity t2000 actZeroZero = .error "Invalid lat/lng" ∧
    checkSanity t2000 actSixDays = .error "Exceedingly long activity (time)" ∧
    checkSanity t2000 actOneWaypoint = .error "Only 1 waypoint" :=
  ⟨rfl, rfl, rfl, rfl⟩

/-- Claim C2 (failing input): on an activity whose first lap holds a
fully-located waypoint at (10, 10) and whose second lap holds one at
(20, 20), `GetFirstWaypointWithLocation` returns the *second* lap's
location (its `break` only leaves the inner loop), so `CalculateTZ`
resolves against (20, 20) — not the first waypoint in lap order the
function's own name and the specification promise. -/
theorem c2_resolves_last_lap_not_first :
    getFirstWaypointWithLocation lap2Act = some ⟨some 20, some 20, none⟩ ∧
    calculateTZ lap2Act none false cgByLat lkStr = .ok (.named "Lap2TZ") :=
  ⟨rfl, rfl⟩

/-- Claim C1 (counterexample): with the cache holding the numeric value
1 for the activity's coordinates, `CalculateTZ` constructs
`pytz.FixedOffset(1 * 60)` — a 60-minute offset, not the 1-minute offset
the claim ("that number interpreted as minutes") predicts. -/
theorem c1_counterexample_offset_not_minutes :
    calculateTZ tzAct none false cgNum1 lkStr = .ok (.fixedOffset 60) ∧
    calculateTZ tzAct none false cgNum1 lkStr ≠ .ok (.fixedOffset 1) := by
  refine ⟨rfl, fun h => ?_⟩
  have h2 : TZVal.fixedOffset 60 = TZVal.fixedOffset 1 :=
    Except.ok.inj (show Except.ok (TZVal.fixedOffset 60) =
      Except.ok (TZVal.fixedOffset 1) from h)
  exact absurd h2 (by decide)

/-- Claim C1 (amended): for a numeric cache/lookup result `n`, the
timezone set on the activity is the fixed-offset timezone of `n * 60`
minutes (`n` is interpreted as *hours*); for a string result it is the
named timezone of that identifier. -/
theorem c1_numeric_result_fixed_offset (a : Activity) (l : Location)
    (recalc : Bool) (cacheGet : Option ℚ → Option ℚ → Option TZCacheVal)
    (lookup : Option ℚ → Option ℚ → TZCacheVal) (hTZ : a.TZ = none) :
    (∀ n, cacheGet l.Latitude l.Longitude = some (.num n) →
      calculateTZ a (some l) recalc cacheGet lookup =
        .ok (.fixedOffset (n * 60))) ∧
    (∀ s, cacheGet l.Latitude l.Longitude = some (.str s) →
      calculateTZ a (some l) recalc cacheGet lookup = .ok (.named s)) ∧
    (∀ n, cacheGet l.Latitude l.Longitude = none →
      lookup l.Latitude l.Longitude = .num n →
      calculateTZ a (some l) recalc cacheGet lookup =
        .ok (.fixedOffset (n * 60))) ∧
    (∀ s, cacheGet l.Latitude l.Longitude = none →
      lookup l.Latitude l.Longitude = .str s →
      calculateTZ a (some l) recalc cacheGet lookup = .ok (.named s)) := by
  refine ⟨fun n h => ?_, fun s h => ?_, fun n h h2 => ?_, fun s h h2 => ?_⟩
  · simp [calculateTZ, calculateTZBody, hTZ, h]
  · simp [calculateTZ, calculateTZBody, hTZ, h]
  · simp [calculateTZ, calculateTZBody, hTZ, h, h2]
  · simp [calculateTZ, calculateTZBody, hTZ, h, h2]

/-- Witness for C1's amended theorem at the concrete input of the
counterexample. -/
theorem c1_numeric_result_witness :
    calculateTZ tzAct (some ⟨some 10, some 20, none⟩) false cgNum1 lkStr =
      .ok (.fixedOffset (1 * 60)) :=
  (c1_numeric_result_fixed_offset tzAct ⟨some 10, some 20, none⟩ false cgNum1
    lkStr rfl).1 1 rfl

/-- Claim C4: `CalculateUID` silently returns without a UID when the
start time is absent; otherwise the UID is a deterministic hash of the
start time truncated to the second and converted into the activity's
timezone, rendered without any timezone qualifier — so equal local
wall-clock start seconds give equal UIDs regardless of timezone, and
identical absolute instants whose local wall-clock readings differ give
different UIDs. -/
theorem c4_calculateUID_local_wall_clock :
    (∀ lo tz, calculateUID lo none tz = none) ∧
    (∀ lo1 lo2 s1 s2 z1 z2,
      localWallSecond s1 z1 lo1 = localWallSecond s2 z2 lo2 →
      calculateUID lo1 (some s1) (some z1) =
        calculateUID lo2 (some s2) (some z2)) ∧
    (∀ lo1 lo2 s1 s2 (z1 z2 : Int → Int) w1 w2,
      s1.tzOffset = some w1 → s2.tzOffset = some w2 →
      s1.wall - w1 * 60000000 = s2.wall - w2 * 60000000 →
      z1 (s1.wall - s1.wall % 1000000 - w1 * 60000000) ≠
        z2 (s2.wall - s2.wall % 1000000 - w2 * 60000000) →
      calculateUID lo1 (some s1) (some z1) ≠
        calculateUID lo2 (some s2) (some z2)) := by
  refine ⟨fun lo tz => rfl, fun lo1 lo2 s1 s2 z1 z2 h => ?_,
    fun lo1 lo2 s1 s2 z1 z2 w1 w2 h1 h2 hinst hoff => ?_⟩
  · have e1 : calculateUID lo1 (some s1) (some z1) =
        some (localWallSecond s1 z1 lo1) := rfl
    have e2 : calculateUID lo2 (some s2) (some z2) =
        some (localWallSecond s2 z2 lo2) := rfl
    rw [e1, e2, h]
  · simp only [calculateUID, DateTime.astimezone, h1, h2, ne_eq,
      Option.some.injEq]
    intro h
    exact hoff (by omega)

/-- Witness for C4: a start with stray microseconds and one without, in
the same zone, share a UID; the same absolute instant read in UTC+0 and
UTC+60 yields different UIDs. -/
theorem c4_calculateUID_witness :
    calculateUID 0 (some ⟨5123456, some 0⟩) (some (fun _ => 0)) =
      calculateUID 0 (some ⟨5000000, some 0⟩) (some (fun _ => 0)) ∧
    calculateUID 0 (some ⟨0, some 0⟩) (some (fun _ => 0)) ≠
      calculateUID 0 (some ⟨3600000000, some 60⟩) (some (fun _ => 60)) :=
  ⟨c4_calculateUID_local_wall_clock.2.1 0 0 ⟨5123456, some 0⟩ ⟨5000000, some 0⟩
      (fun _ => 0) (fun _ => 0) (by decide),
   c4_calculateUID_local_wall_clock.2.2 0 0 ⟨0, some 0⟩ ⟨3600000000, some 60⟩
      (fun _ => 0) (fun _ => 60) 0 60 rfl rfl (by decide) (by decide)⟩

theorem pickInner_cases (d ts : List String) (m : String) :
    pickInner d ts m = m ∨ pickInner d ts m ∈ ts := by
  induction ts generalizing m with
  | nil => exact Or.inl rfl
  | cons a l ih =>
    have step : pickInner d (a :: l) m =
        pickInner d l (if d.indexOf m < d.indexOf a then a else m) := rfl
    rw [step]
    rcases ih (if d.indexOf m < d.indexOf a then a else m) with h | h
    · rw [h]
      split
      · exact Or.inr (List.mem_cons_self a l)
      · exact Or.inl rfl
    · exact Or.inr (List.mem_cons_of_mem a h)

theorem pickInner_ge_init (d ts : List String) (m : String) :
    d.indexOf m ≤ d.indexOf (pickInner d ts m) := by
  induction ts generalizing m with
  | nil => exact le_refl _
  | cons a l ih =>
    have step : pickInner d (a :: l) m =
        pickInner d l (if d.indexOf m < d.indexOf a then a else m) := rfl
    rw [step]
    refine le_trans ?_ (ih _)
    split
    · exact le_of_lt (by assumption)
    · exact le_refl _

theorem pickInner_ge_mem (d ts : List String) (m : String) :
    ∀ x ∈ ts, d.indexOf x ≤ d.indexOf (pickInner d ts m) := by
  induction ts generalizing m with
  | nil => intro x hx; cases hx
  | cons a l ih =>
    intro x hx
    have step : pickInner d (a :: l) m =
        pickInner d l (if d.indexOf m < d.indexOf a then a else m) := rfl
    rw [step]
    rcases List.mem_cons.mp hx with rfl | hx
    · refine le_trans ?_ (pickInner_ge_init d l _)
      split
      · exact le_refl _
      · exact le_of_not_lt (by assumption)
    · exact ih _ x hx

theorem filter_length_eq_iff (p : String → Bool) (ts : List String) :
    (ts.filter p).length = ts.length ↔ ∀ x ∈ ts, p x := by
  constructor
  · intro h
    exact List.filter_eq_self.mp ((List.filter_sublist ts).eq_of_length h)
  · intro h
    rw [List.filter_eq_self.mpr h]

theorem fam1_fam2_disjoint : ∀ x, x ∈ fam1 → x ∈ fam2 → False := by
  intro x h1 h2
  fin_cases h1 <;> exact absurd h2 (by decide)

/-- Claim C6: `PickMostSpecific` drops falsy and `Other` entries and
returns `Other` if nothing remains; if the remaining entries all lie in
one hierarchy family it returns a family member of highest rank among
them (it is one of the inputs and no input outranks it); otherwise it
returns the first element of the filtered list; in particular
`["Cycling"]` gives `"Cycling"`, `["Cycling", "MtnBiking"]` gives
`"MtnBiking"` and the mixed `["Cycling", "Running"]` gives
`"Cycling"`. -/
theorem c6_pickMostSpecific (types : List String) :
    (filteredTypes types = [] → pickMostSpecific types = "Other") ∧
    (∀ fam ∈ hierarchy, filteredTypes types ≠ [] →
      (∀ x ∈ filteredTypes types, x ∈ fam) →
      pickMostSpecific types ∈ filteredTypes types ∧
      ∀ x ∈ filteredTypes types,
        fam.indexOf x ≤ fam.indexOf (pickMostSpecific types)) ∧
    (∀ t rest, filteredTypes types = t :: rest →
      ¬(∀ x ∈ filteredTypes types, x ∈ fam1) →
      ¬(∀ x ∈ filteredTypes types, x ∈ fam2) →
      pickMostSpecific types = t) ∧
    pickMostSpecific ["Cycling"] = "Cycling" ∧
    pickMostSpecific ["Cycling", "MtnBiking"] = "MtnBiking" ∧
    pickMostSpecific ["Cycling", "Running"] = "Cycling" := by
  cases hts : filteredTypes types with
  | nil =>
    refine ⟨fun _ => ?_, fun fam hf hne => absurd rfl hne,
      fun t rest heq _ _ => ?_, rfl, rfl, rfl⟩
    · simp [pickMostSpecific, hts]
    · cases heq
  | cons t rest =>
    have hpick : pickMostSpecific types =
        pickStep (t :: rest) (pickStep (t :: rest) t fam1) fam2 := by
      simp [pickMostSpecific, hts, hierarchy]
    have htmem : t ∈ t :: rest := List.mem_cons_self t rest
    refine ⟨?_, ?_, ?_, rfl, rfl, rfl⟩
    · intro h; cases h
    · intro fam hf hne hsub
      have hf2 : fam = fam1 ∨ fam = fam2 := by simpa [hierarchy] using hf
      rcases hf2 with rfl | rfl
      · have ht1 : t ∈ fam1 := hsub t htmem
        have g1 : ((t :: rest).filter
            (fun x => decide (x ∈ fam1))).length = (t :: rest).length :=
          (filter_length_eq_iff _ _).mpr (fun x hx => by
            simpa using hsub x hx)
        have g2 : ¬((t :: rest).filter
            (fun x => decide (x ∈ fam2))).length = (t :: rest).length := by
          intro h
          have := (filter_length_eq_iff _ _).mp h t htmem
          exact fam1_fam2_disjoint t ht1 (by simpa using this)
        have hres : pickMostSpecific types = pickInner fam1 (t :: rest) t := by
          rw [hpick]; unfold pickStep; rw [if_neg g2, if_pos g1]
        rw [hres]
        constructor
        · rcases pickInner_cases fam1 (t :: rest) t with h | h
          · rw [h]; exact htmem
          · exact h
        · exact pickInner_ge_mem fam1 (t :: rest) t
      · have ht2 : t ∈ fam2 := hsub t htmem
        have g1 : ¬((t :: rest).filter
            (fun x => decide (x ∈ fam1))).length = (t :: rest).length := by
          intro h
          have := (filter_length_eq_iff _ _).mp h t htmem
          exact fam1_fam2_disjoint t (by simpa using this) ht2
        have g2 : ((t :: rest).filter
            (fun x => decide (x ∈ fam2))).length = (t :: rest).length :=
          (filter_length_eq_iff _ _).mpr (fun x hx => by
            simpa using hsub x hx)
        have hres : pickMostSpecific types = pickInner fam2 (t :: rest) t := by
          rw [hpick]; unfold pickStep; rw [if_pos g2, if_neg g1]
        rw [hres]
        constructor
        · rcases pickInner_cases fam2 (t :: rest) t with h | h
          · rw [h]; exact htmem
          · exact h
        · exact pickInner_ge_mem fam2 (t :: rest) t
    · intro t2 r2 heq hn1 hn2
      injection heq with h1 h2
      subst h1; subst h2
      have g1 : ¬((t :: rest).filter
          (fun x => decide (x ∈ fam1))).length = (t :: rest).length := by
        intro h
        refine hn1 ?_
        intro x hx
        simpa using (filter_length_eq_iff _ _).mp h x hx
      have g2 : ¬((t :: rest).filter
          (fun x => decide (x ∈ fam2))).length = (t :: rest).length := by
        intro h
        refine hn2 ?_
        intro x hx
        simpa using (filter_length_eq_iff _ _).mp h x hx
      rw [hpick]; unfold pickStep; rw [if_neg g2, if_neg g1]

/-- Witness for C6 at a concrete single-family input: on
`["Running", "Hiking"]` the pick is one of the inputs and carries the
highest family rank among them. -/
theorem c6_pickMostSpecific_witness :
    pickMostSpecific ["Running", "Hiking"] ∈
      filteredTypes ["Running", "Hiking"] ∧
    ∀ x ∈ filteredTypes ["Running", "Hiking"],
      fam2.indexOf x ≤ fam2.indexOf (pickMostSpecific ["Running", "Hiking"]) :=
  (c6_pickMostSpecific ["Running", "Hiking"]).2.1 fam2 (by decide) (by decide)
    (by decide)

theorem asUnits_self (o : ActivityStatistic) (u : ASUnit) (h : u = o.Units) :
    o.asUnits u = some o := by
  rw [ActivityStatistic.asUnits, if_pos h]

theorem coalesceField_both (m o : StatField) (a b : ℚ) (hm : m.val = some a)
    (ho : o.val = some b) (hs : 0 < o.samples) :
    (coalesceField m o).1 =
      ⟨some (a + (b - a) / ((m.samples : ℚ) + 1 / (o.samples : ℚ))),
       m.samples + o.samples⟩ := by
  simp only [coalesceField, ho, hm, if_neg (Nat.pos_iff_ne_zero.mp hs)]

theorem coalesceField_mine_absent (m o : StatField) (b : ℚ)
    (hm : m.val = none) (ho : o.val = some b) (hs : 0 < o.samples) :
    (coalesceField m o).1 = o := by
  cases o with | mk ov os =>
  simp only at ho hs
  subst ho
  simp only [coalesceField, hm, if_neg (Nat.pos_iff_ne_zero.mp hs)]

/-- Claim C3: `coalesceWith` on same-unit statistics updates each field
present on both operands (with a positive recorded operand count) to
`self.value + (other.value - self.value) / (self.samples +
1/other.samples)` and adds the operand's count to `self`'s; a field
absent on `self` copies the operand's value and count; coalescing
`{Value: 10, samples: 1}` with `{Value: 20, samples: 1}` yields
`Value = 15` with 2 samples. -/
theorem c3_coalesceWith_incremental_mean :
    (∀ s o : ActivityStatistic, o.Units = s.Units → ∀ f a b,
      (statGet s f).val = some a → (statGet o f).val = some b →
      0 < (statGet o f).samples →
      ∃ r, s.coalesceWith o = some r ∧
        statGet r f =
          ⟨some (a + (b - a) /
              (((statGet s f).samples : ℚ) + 1 / ((statGet o f).samples : ℚ))),
           (statGet s f).samples + (statGet o f).samples⟩) ∧
    (∀ s o : ActivityStatistic, o.Units = s.Units → ∀ f b,
      (statGet s f).val = none → (statGet o f).val = some b →
      0 < (statGet o f).samples →
      ∃ r, s.coalesceWith o = some r ∧ statGet r f = statGet o f) ∧
    (∃ r, (initStat .Watts (some 10) none none none none none).coalesceWith
        (initStat .Watts (some 20) none none none none none) = some r ∧
      statGet r .Value = ⟨some 15, 2⟩) := by
  have hboth : ∀ s o : ActivityStatistic, o.Units = s.Units → ∀ f a b,
      (statGet s f).val = some a → (statGet o f).val = some b →
      0 < (statGet o f).samples →
      ∃ r, s.coalesceWith o = some r ∧
        statGet r f =
          ⟨some (a + (b - a) /
              (((statGet s f).samples : ℚ) + 1 / ((statGet o f).samples : ℚ))),
           (statGet s f).samples + (statGet o f).samples⟩ := by
    intro s o hU f a b hm ho hs
    have hu : o.asUnits s.Units = some o := asUnits_self o s.Units hU.symm
    refine ⟨_, by rw [ActivityStatistic.coalesceWith, hu]; rfl, ?_⟩
    cases f <;>
      (simp only [statGet] at hm ho hs ⊢;
       exact coalesceField_both _ _ a b hm ho hs)
  refine ⟨hboth, ?_, ?_⟩
  · intro s o hU f b hm ho hs
    have hu : o.asUnits s.Units = some o := asUnits_self o s.Units hU.symm
    refine ⟨_, by rw [ActivityStatistic.coalesceWith, hu]; rfl, ?_⟩
    cases f <;>
      (simp only [statGet] at hm ho hs ⊢;
       exact coalesceField_mine_absent _ _ b hm ho hs)
  · obtain ⟨r, hr, hv⟩ := hboth
      (initStat .Watts (some 10) none none none none none)
      (initStat .Watts (some 20) none none none none none) rfl .Value 10 20
      rfl rfl (by decide)
    refine ⟨r, hr, ?_⟩
    rw [hv]
    norm_num [statGet, initStat]

/-- Witness for C3: the specification's own worked example evaluated
through the theorem. -/
theorem c3_coalesceWith_witness :
    ∃ r, (initStat .Watts (some 10) none none none none none).coalesceWith
        (initStat .Watts (some 20) none none none none none) = some r ∧
      statGet r .Value = ⟨some (10 + (20 - 10) / ((1 : ℚ) + 1 / 1)), 1 + 1⟩ := by
  obtain ⟨r, hr, hv⟩ := c3_coalesceWith_incremental_mean.1
    (initStat .Watts (some 10) none none none none none)
    (initStat .Watts (some 20) none none none none none) rfl .Value 10 20
    rfl rfl (by decide)
  refine ⟨r, hr, ?_⟩
  rw [hv]
  norm_num [statGet, initStat]

theorem sumField_both (m o : StatField) (a b : ℚ) (hm : m.val = some a)
    (ho : o.val = some b) : sumField m o = ⟨some (a + b), 1⟩ := by
  simp only [sumField, hm, ho]

theorem sumField_mine_absent (m o : StatField) (b : ℚ) (hm : m.val = none)
    (ho : o.val = some b) : sumField m o = o := by
  cases o with | mk ov os =>
  simp only at ho
  subst ho
  simp only [sumField, hm]

theorem maxField_both (m o : StatField) (a b : ℚ) (hm : m.val = some a)
    (ho : o.val = some b) : maxField m o = if a < b then o else m := by
  simp only [maxField, hm, ho]

theorem minField_both (m o : StatField) (a b : ℚ) (hm : m.val = some a)
    (ho : o.val = some b) : minField m o = if b < a then o else m := by
  simp only [minField, hm, ho]

theorem convField_spec (f : StatField) (a b : ASUnit) (res : StatField)
    (h : convField f a b = some res) :
    res.samples = f.samples ∧ (res.val = none ↔ f.val = none) := by
  cases f with | mk v s =>
  cases v with
  | none =>
    simp only [convField] at h
    injection h with h
    subst h
    simp
  | some x =>
    simp only [convField] at h
    cases hc : convertValue x a b with
    | none => rw [hc] at h; cases h
    | some c =>
      rw [hc] at h
      simp only [Option.map_some'] at h
      injection h with h
      subst h
      simp

theorem asUnits_fields (st : ActivityStatistic) (u : ASUnit)
    (res : ActivityStatistic) (h : st.asUnits u = some res) :
    ∀ f, (statGet res f).samples = (statGet st f).samples ∧
      ((statGet res f).val = none ↔ (statGet st f).val = none) := by
  unfold ActivityStatistic.asUnits at h
  split at h
  · cases h
    exact fun f => ⟨rfl, Iff.rfl⟩
  · simp only [bind, Option.bind_eq_some] at h
    obtain ⟨v, hv, av, hav, mn, hmn, mx, hmx, g, hg2, l, hl, hres⟩ := h
    injection hres with hres
    subst hres
    intro f
    cases f
    · exact convField_spec st.Value _ _ v hv
    · exact convField_spec st.Average _ _ av hav
    · exact convField_spec st.Min _ _ mn hmn
    · exact convField_spec st.Max _ _ mx hmx
    · exact convField_spec st.Gain _ _ g hg2
    · exact convField_spec st.Loss _ _ l hl

/-- Claim C5: for every pair of statistics, whenever `sumWith` completes
the `Average` field is absent with sample count 0 regardless of inputs;
with `stat` the operand converted to `self`'s units (the operation's own
first step — the identity when the units agree; conversion preserves
each field's presence and sample count, so presence of `stat`'s fields
is presence of the operand's), `Value`, `Gain` and `Loss` present on
both operands are added with `self`'s count reset to 1, one present only
on the operand is copied with the operand's count, and `Max` takes the
larger and `Min` the smaller of two present values, carrying the winning
operand's field (value and sample count). -/
theorem c5_sumWith_additive_and_extremes (s o : ActivityStatistic) :
    (∀ r, s.sumWith o = some r → r.Average = ⟨none, 0⟩) ∧
    (∀ stat, o.asUnits s.Units = some stat →
      (∀ f, (statGet stat f).samples = (statGet o f).samples ∧
        ((statGet stat f).val = none ↔ (statGet o f).val = none)) ∧
      ∃ r, s.sumWith o = some r ∧
        (∀ f, f = StatFieldKey.Value ∨ f = StatFieldKey.Gain ∨
            f = StatFieldKey.Loss →
          (∀ a b, (statGet s f).val = some a →
            (statGet stat f).val = some b →
            statGet r f = ⟨some (a + b), 1⟩) ∧
          (∀ b, (statGet s f).val = none → (statGet stat f).val = some b →
            statGet r f = statGet stat f)) ∧
        (∀ a b, s.Max.val = some a → stat.Max.val = some b →
          r.Max = if a < b then stat.Max else s.Max) ∧
        (∀ a b, s.Min.val = some a → stat.Min.val = some b →
          r.Min = if b < a then stat.Min else s.Min)) := by
  constructor
  · intro r hr
    unfold ActivityStatistic.sumWith at hr
    cases hc : o.asUnits s.Units with
    | none => rw [hc] at hr; cases hr
    | some stat =>
      rw [hc] at hr
      simp only [Option.map_some'] at hr
      injection hr with hr
      subst hr
      rfl
  · intro stat hstat
    refine ⟨asUnits_fields o s.Units stat hstat,
      _, by rw [ActivityStatistic.sumWith, hstat]; rfl, ?_, ?_, ?_⟩
    · intro f hf
      rcases hf with rfl | rfl | rfl <;>
        exact ⟨fun a b hm ho => by
            simp only [statGet] at hm ho ⊢; exact sumField_both _ _ a b hm ho,
          fun b hm ho => by
            simp only [statGet] at hm ho ⊢;
            exact sumField_mine_absent _ _ b hm ho⟩
    · intro a b hm ho
      exact maxField_both _ _ a b hm ho
    · intro a b hm ho
      exact minField_both _ _ a b hm ho

/-- Witness for C5 with a unit-converting operand: a metre `self` summed
with a kilometre operand still ends with `Average` absent at count 0. -/
theorem c5_sumWith_witness :
    ((initStat .Meters (some 3) (some 7) none none none none).sumWith
        (initStat .Kilometers (some 4) (some 9) none none none none)).map
      (fun r => r.Average) = some (⟨none, 0⟩ : StatField) := by
  have hr : (initStat .Meters (some 3) (some 7) none none none none).sumWith
      (initStat .Kilometers (some 4) (some 9) none none none none) =
      some (((initStat .Meters (some 3) (some 7) none none none
        none).sumWith
        (initStat .Kilometers (some 4) (some 9) none none none none)).getD
          (initStat .Meters none none none none none none)) := rfl
  rw [hr, Option.map_some']
  exact congrArg some ((c5_sumWith_additive_and_extremes
    (initStat .Meters (some 3) (some 7) none none none none)
    (initStat .Kilometers (some 4) (some 9) none none none none)).1 _ hr)

set_option maxRecDepth 100000 in
/-- Claim C9: for every ordered pair of distinct units connected in the
conversion graph (`connectedPairs` enumerates exactly the pairs for
which the path search succeeds) and every rational value `x`, converting
`x` forward and the result back returns exactly `x` — each scalar edge
is multiplied forward and divided in reverse, and the one
function-pair edge (Celsius/Fahrenheit) is an exact forward/inverse
pair, so the round trip is exact over the rationals (floats only add
rounding within the specification's tolerance). -/
theorem c9_unit_round_trip :
    ∀ (x : ℚ), ∀ p ∈ connectedPairs,
      ∃ y, convertValue x p.1 p.2 = some y ∧ convertValue y p.2 p.1 = some x := by
  have hl : connectedPairs =
    [(.Meters, .Kilometers), (.Meters, .Feet), (.Meters, .Yards),
     (.Meters, .Miles),
     (.Kilometers, .Meters), (.Kilometers, .Feet), (.Kilometers, .Yards),
     (.Kilometers, .Miles),
     (.Feet, .Meters), (.Feet, .Kilometers), (.Feet, .Yards), (.Feet, .Miles),
     (.Yards, .Meters), (.Yards, .Kilometers), (.Yards, .Feet),
     (.Yards, .Miles),
     (.Miles, .Meters), (.Miles, .Kilometers), (.Miles, .Feet),
     (.Miles, .Yards),
     (.DegreesCelcius, .DegreesFahrenheit),
     (.DegreesFahrenheit, .DegreesCelcius),
     (.KilometersPerHour, .HectometersPerHour),
     (.KilometersPerHour, .MetersPerSecond),
     (.KilometersPerHour, .MilesPerHour),
     (.KilometersPerHour, .HundredYardsPerHour),
     (.HectometersPerHour, .KilometersPerHour),
     (.HectometersPerHour, .MetersPerSecond),
     (.HectometersPerHour, .MilesPerHour),
     (.HectometersPerHour, .HundredYardsPerHour),
     (.MetersPerSecond, .KilometersPerHour),
     (.MetersPerSecond, .HectometersPerHour),
     (.MetersPerSecond, .MilesPerHour),
     (.MetersPerSecond, .HundredYardsPerHour),
     (.MilesPerHour, .KilometersPerHour),
     (.MilesPerHour, .HectometersPerHour),
     (.MilesPerHour, .MetersPerSecond),
     (.MilesPerHour, .HundredYardsPerHour),
     (.HundredYardsPerHour, .KilometersPerHour),
     (.HundredYardsPerHour, .HectometersPerHour),
     (.HundredYardsPerHour, .MetersPerSecond),
     (.HundredYardsPerHour, .MilesPerHour),
     (.StepsPerMinute, .DoubledStepsPerMinute),
     (.DoubledStepsPerMinute, .StepsPerMinute),
     (.Kilocalories, .Kilojoules), (.Kilojoules, .Kilocalories)] := by rfl
  intro x p hp
  rw [hl] at hp
  fin_cases hp <;> exact ⟨_, rfl, congrArg some (by ring)⟩

set_option maxRecDepth 100000 in
/-- Witness for C9 at the kilometre/metre pair and `x = 7`. -/
theorem c9_unit_round_trip_witness :
    ∃ y, convertValue 7 .Kilometers .Meters = some y ∧
      convertValue y .Meters .Kilometers = some 7 :=
  c9_unit_round_trip 7 (.Kilometers, .Meters) (by decide)

theorem statSet_units (s : ActivityStatistic) (f : StatFieldKey)
    (v : StatField) : (statSet s f v).Units = s.Units := by
  cases f <;> rfl

theorem statGet_statSet_same (s : ActivityStatistic) (f : StatFieldKey)
    (v : StatField) : statGet (statSet s f v) f = v := by
  cases f <;> rfl

theorem statGet_statSet_ne (s : ActivityStatistic) (f g : StatFieldKey)
    (v : StatField) (h : g ≠ f) : statGet (statSet s f v) g = statGet s g := by
  cases f <;> cases g <;> first | rfl | exact absurd rfl h

theorem cleanField_get_same (st conv : ActivityStatistic) (f : StatFieldKey)
    (lo hi : ℚ) :
    statGet (cleanField st conv f lo hi) f =
      (match (statGet conv f).val with
       | none => statGet st f
       | some v =>
         if v < lo ∨ v > hi then (⟨none, 0⟩ : StatField)
         else statGet st f) := by
  unfold cleanField
  cases hv : (statGet conv f).val
  · rfl
  · dsimp only
    split_ifs with hc
    · exact statGet_statSet_same st f ⟨none, 0⟩
    · rfl

theorem cleanField_get_other (st conv : ActivityStatistic)
    (f g : StatFieldKey) (lo hi : ℚ) (h : g ≠ f) :
    statGet (cleanField st conv f lo hi) g = statGet st g := by
  unfold cleanField
  cases hv : (statGet conv f).val
  · rfl
  · dsimp only
    split_ifs with hc
    · exact statGet_statSet_ne st f g ⟨none, 0⟩ h
    · rfl

theorem cleanField_units (st conv : ActivityStatistic) (f : StatFieldKey)
    (lo hi : ℚ) : (cleanField st conv f lo hi).Units = st.Units := by
  unfold cleanField
  cases hv : (statGet conv f).val
  · rfl
  · dsimp only
    split_ifs with hc
    · exact statSet_units st f ⟨none, 0⟩
    · rfl

theorem cleanFields_checked (st conv : ActivityStatistic) (lo hi : ℚ)
    (cv : ℚ → ℚ) (f : StatFieldKey)
    (hf : f = StatFieldKey.Value ∨ f = StatFieldKey.Average ∨
      f = StatFieldKey.Min ∨ f = StatFieldKey.Max)
    (hcv : (statGet conv f).val = (statGet st f).val.map cv) :
    CleanedFieldOutcome lo hi cv (statGet st f)
      (statGet (cleanFields st conv lo hi) f) := by
  have hget : statGet (cleanFields st conv lo hi) f =
      (match (statGet conv f).val with
       | none => statGet st f
       | some v =>
         if v < lo ∨ v > hi then (⟨none, 0⟩ : StatField)
         else statGet st f) := by
    rcases hf with rfl | rfl | rfl | rfl
    · unfold cleanFields
      rw [cleanField_get_same,
        cleanField_get_other _ conv .Min .Value lo hi (by decide),
        cleanField_get_other _ conv .Max .Value lo hi (by decide),
        cleanField_get_other _ conv .Average .Value lo hi (by decide)]
    · unfold cleanFields
      rw [cleanField_get_other _ conv .Value .Average lo hi (by decide),
        cleanField_get_other _ conv .Min .Average lo hi (by decide),
        cleanField_get_other _ conv .Max .Average lo hi (by decide),
        cleanField_get_same]
    · unfold cleanFields
      rw [cleanField_get_other _ conv .Value .Min lo hi (by decide),
        cleanField_get_same,
        cleanField_get_other _ conv .Max .Min lo hi (by decide),
        cleanField_get_other _ conv .Average .Min lo hi (by decide)]
    · unfold cleanFields
      rw [cleanField_get_other _ conv .Value .Max lo hi (by decide),
        cleanField_get_other _ conv .Min .Max lo hi (by decide),
        cleanField_get_same,
        cleanField_get_other _ conv .Average .Max lo hi (by decide)]
  rw [hget]
  refine ⟨fun v hv hout => ?_, fun v hv hin => ?_, fun hv => ?_⟩
  · rw [hcv, hv]
    simp [hout]
  · rw [hcv, hv]
    simp [hin]
  · rw [hcv, hv]
    rfl

theorem cleanFields_gain (st conv : ActivityStatistic) (lo hi : ℚ) :
    statGet (cleanFields st conv lo hi) .Gain = statGet st .Gain := by
  unfold cleanFields
  rw [cleanField_get_other _ conv .Value .Gain lo hi (by decide),
    cleanField_get_other _ conv .Min .Gain lo hi (by decide),
    cleanField_get_other _ conv .Max .Gain lo hi (by decide),
    cleanField_get_other _ conv .Average .Gain lo hi (by decide)]

theorem cleanFields_loss (st conv : ActivityStatistic) (lo hi : ℚ) :
    statGet (cleanFields st conv lo hi) .Loss = statGet st .Loss := by
  unfold cleanFields
  rw [cleanField_get_other _ conv .Value .Loss lo hi (by decide),
    cleanField_get_other _ conv .Min .Loss lo hi (by decide),
    cleanField_get_other _ conv .Max .Loss lo hi (by decide),
    cleanField_get_other _ conv .Average .Loss lo hi (by decide)]

theorem cleanFields_units (st conv : ActivityStatistic) (lo hi : ℚ) :
    (cleanFields st conv lo hi).Units = st.Units := by
  unfold cleanFields
  rw [cleanField_units, cleanField_units, cleanField_units, cleanField_units]

theorem cleanStat_outcome (st : ActivityStatistic) (u : ASUnit) (lo hi : ℚ)
    (cv : ℚ → ℚ) (conv : ActivityStatistic) (hconv : st.asUnits u = some conv)
    (hvals : ∀ f, (statGet conv f).val = (statGet st f).val.map cv) :
    ∃ res, cleanStat st u lo hi = some res ∧
      CleanedStatOutcome lo hi cv st res := by
  refine ⟨_, by unfold cleanStat; rw [hconv]; rfl, ?_⟩
  exact ⟨cleanFields_checked st conv lo hi cv .Value (Or.inl rfl)
      (hvals .Value),
    cleanFields_checked st conv lo hi cv .Average (Or.inr (Or.inl rfl))
      (hvals .Average),
    cleanFields_checked st conv lo hi cv .Min (Or.inr (Or.inr (Or.inl rfl)))
      (hvals .Min),
    cleanFields_checked st conv lo hi cv .Max (Or.inr (Or.inr (Or.inr rfl)))
      (hvals .Max),
    cleanFields_gain st conv lo hi,
    cleanFields_loss st conv lo hi,
    cleanFields_units st conv lo hi⟩

theorem cleanStat_outcome_id (st : ActivityStatistic) (u : ASUnit)
    (lo hi : ℚ) (h : st.Units = u) :
    ∃ res, cleanStat st u lo hi = some res ∧
      CleanedStatOutcome lo hi id st res :=
  cleanStat_outcome st u lo hi id st (asUnits_self st u h.symm)
    (fun f => by cases hv : (statGet st f).val <;> simp [hv])

theorem conv_m_km (v : ℚ) :
    convertValue v .Meters .Kilometers = some (v / 1000) := rfl

theorem convField_m_km (f : StatField) :
    convField f .Meters .Kilometers =
      some ⟨f.val.map (fun v => v / 1000), f.samples⟩ := by
  cases f with | mk v s =>
  cases v <;> simp [convField, conv_m_km]

theorem asUnits_m_km (st : ActivityStatistic) (h : st.Units = .Meters) :
    st.asUnits .Kilometers =
      some { Value := ⟨st.Value.val.map (fun v => v / 1000),
               st.Value.samples⟩,
             Average := ⟨st.Average.val.map (fun v => v / 1000),
               st.Average.samples⟩,
             Min := ⟨st.Min.val.map (fun v => v / 1000), st.Min.samples⟩,
             Max := ⟨st.Max.val.map (fun v => v / 1000), st.Max.samples⟩,
             Gain := ⟨st.Gain.val.map (fun v => v / 1000), st.Gain.samples⟩,
             Loss := ⟨st.Loss.val.map (fun v => v / 1000), st.Loss.samples⟩,
             Units := .Kilometers } := by
  unfold ActivityStatistic.asUnits
  rw [h]
  rw [if_neg (by decide)]
  simp [convField_m_km]

theorem cleanStat_outcome_dist (st : ActivityStatistic)
    (h : st.Units = .Meters) :
    ∃ res, cleanStat st .Kilometers 0 1000 = some res ∧
      CleanedStatOutcome 0 1000 (fun v => v / 1000) st res :=
  cleanStat_outcome st .Kilometers 0 1000 (fun v => v / 1000) _
    (asUnits_m_km st h) (fun f => by cases f <;> rfl)

theorem cleanStatsObj_spec (ss : ActivityStatistics)
    (h : DefaultStatsUnits ss) :
    ∃ res, cleanStatsObj ss = some res ∧ CleanedStatsOutcome ss res := by
  obtain ⟨hDis, hTim, hMov, hEn, hSp, hEl, hHR, hCad, hRC, hStr, hTmp,
    hPow⟩ := h
  obtain ⟨pw, hpw, opw⟩ := cleanStat_outcome_id ss.Power .Watts 0 5000 hPow
  obtain ⟨sp, hsp, osp⟩ := cleanStat_outcome_id ss.Speed .KilometersPerHour
    0 150 hSp
  obtain ⟨el, hel, oel⟩ := cleanStat_outcome_id ss.Elevation .Meters (-500)
    8850 hEl
  obtain ⟨hr, hhr, ohr⟩ := cleanStat_outcome_id ss.HR .BeatsPerMinute 15 300
    hHR
  obtain ⟨cad, hcad, ocad⟩ := cleanStat_outcome_id ss.Cadence
    .RevolutionsPerMinute 0 255 hCad
  obtain ⟨rc, hrc, orc⟩ := cleanStat_outcome_id ss.RunCadence .StepsPerMinute
    0 255 hRC
  obtain ⟨st2, hst2, ost2⟩ := cleanStat_outcome_id ss.Strides .Strides 1
    9999999 hStr
  obtain ⟨tmp, htmp, otmp⟩ := cleanStat_outcome_id ss.Temperature
    .DegreesCelcius (-62) 50 hTmp
  obtain ⟨en, hen, oen⟩ := cleanStat_outcome_id ss.Energy .Kilocalories 1
    65535 hEn
  obtain ⟨di, hdi, odi⟩ := cleanStat_outcome_dist ss.Distance hDis
  have hobj : cleanStatsObj ss = some
      { Distance := di, TimerTime := ss.TimerTime,
        MovingTime := ss.MovingTime, Energy := en, Speed := sp,
        Elevation := el, HR := hr, Cadence := cad, RunCadence := rc,
        Strides := st2, Temperature := tmp, Power := pw } := by
    simp [cleanStatsObj, hpw, hsp, hel, hhr, hcad, hrc, hst2, htmp, hen, hdi]
  exact ⟨_, hobj, opw, osp, oel, ohr, ocad, orc, ost2, otmp, oen, odi,
    rfl, rfl⟩

theorem cleanLaps_spec (laps : List Lap)
    (h : ∀ lap ∈ laps, DefaultStatsUnits lap.Stats) :
    ∃ laps2, cleanLaps laps = some laps2 ∧
      laps2.length = laps.length ∧
      ∀ i (hi : i < laps.length) (hi2 : i < laps2.length),
        CleanedStatsOutcome (laps.get ⟨i, hi⟩).Stats
          (laps2.get ⟨i, hi2⟩).Stats ∧
        (laps2.get ⟨i, hi2⟩).StartTime = (laps.get ⟨i, hi⟩).StartTime ∧
        (laps2.get ⟨i, hi2⟩).EndTime = (laps.get ⟨i, hi⟩).EndTime ∧
        (laps2.get ⟨i, hi2⟩).Waypoints = (laps.get ⟨i, hi⟩).Waypoints := by
  induction laps with
  | nil =>
    exact ⟨[], rfl, rfl, fun i hi hi2 => absurd hi (by simp)⟩
  | cons lap rest ih =>
    obtain ⟨ls, hls, hout⟩ := cleanStatsObj_spec lap.Stats
      (h lap (List.mem_cons_self lap rest))
    obtain ⟨rest2, hrest, hlen, hidx⟩ := ih
      (fun l hl => h l (List.mem_cons_of_mem lap hl))
    refine ⟨{ lap with Stats := ls } :: rest2, ?_, by simp [hlen], ?_⟩
    · simp [cleanLaps, hls, hrest]
    · intro i hi hi2
      cases i with
      | zero => exact ⟨hout, rfl, rfl, rfl⟩
      | succ n =>
        exact hidx n (by simpa [Nat.succ_lt_succ_iff] using hi)
          (by simpa [Nat.succ_lt_succ_iff] using hi2)

/-- Claim C8: `CleanStats` cleans each of the ten listed metrics in its
listed unit and inclusive range — each of `Value`, `Average`, `Min`,
`Max` whose converted value lies outside the range is set absent with
sample count 0 on the original stored statistic, every other field
(`Gain`, `Loss`, the unit, and the unchecked `TimerTime`/`MovingTime`)
and every other activity component is untouched — independently on the
activity's statistics set and on every lap's. -/
theorem c8_cleanStats_ranges (a : Activity) (h1 : DefaultStatsUnits a.Stats)
    (h2 : ∀ lap ∈ a.Laps, DefaultStatsUnits lap.Stats) :
    ∃ a2, cleanStats a = some a2 ∧ CleanedStatsOutcome a.Stats a2.Stats ∧
      a2.Laps.length = a.Laps.length ∧
      (∀ i (hi : i < a.Laps.length) (hi2 : i < a2.Laps.length),
        CleanedStatsOutcome (a.Laps.get ⟨i, hi⟩).Stats
          (a2.Laps.get ⟨i, hi2⟩).Stats ∧
        (a2.Laps.get ⟨i, hi2⟩).Waypoints = (a.Laps.get ⟨i, hi⟩).Waypoints) ∧
      a2.StartTime = a.StartTime ∧ a2.EndTime = a.EndTime ∧
      a2.TZ = a.TZ ∧ a2.FallbackTZ = a.FallbackTZ ∧
      a2.Stationary = a.Stationary := by
  obtain ⟨s2, hs2, hout⟩ := cleanStatsObj_spec a.Stats h1
  obtain ⟨laps2, hlaps, hlen, hidx⟩ := cleanLaps_spec a.Laps h2
  refine ⟨{ a with Stats := s2, Laps := laps2 }, ?_, hout, hlen, ?_,
    rfl, rfl, rfl, rfl, rfl⟩
  · simp [cleanStats, hs2, hlaps]
  · intro i hi hi2
    exact ⟨(hidx i hi hi2).1, (hidx i hi hi2).2.2.2⟩

/-- Witness for C8: the specification's HR example — an HR statistic
with `Average = 400` against the 15–300 range. -/
theorem c8_cleanStats_witness :
    ∃ a2, cleanStats actHR400 = some a2 ∧
      CleanedStatsOutcome actHR400.Stats a2.Stats := by
  obtain ⟨a2, ha, hout, _⟩ := c8_cleanStats_ranges actHR400 (by decide)
    (by intro lap hl; cases hl)
  exact ⟨a2, ha, hout⟩

theorem refSet_samplesRef (s : StatRef) (f : StatFieldKey) (v : Option ℚ) :
    (refSet s f v).samplesRef = s.samplesRef := by
  cases f <;> rfl

theorem coalStep_samplesRef (stat : StatRef) (f : StatFieldKey)
    (acc : StatRef × SampleStore) :
    (coalStep stat f acc).1.samplesRef = acc.1.samplesRef := by
  unfold coalStep
  cases hv : refGet stat f
  · rfl
  · dsimp only
    cases hm : refGet acc.1 f <;> simp [refSet_samplesRef]

theorem coalStep_sets_other (stat : StatRef) (f : StatFieldKey)
    (acc : StatRef × SampleStore) (b : ℚ) (hv : refGet stat f = some b)
    (hne : acc.1.samplesRef ≠ stat.samplesRef)
    (h0 : acc.2 stat.samplesRef f = 0) :
    (coalStep stat f acc).2 stat.samplesRef f = 1 := by
  unfold coalStep
  simp only [hv]
  cases hm : refGet acc.1 f <;> simp [setSample, h0, Ne.symm hne]

theorem coalStep_preserves (stat : StatRef) (g f : StatFieldKey)
    (acc : StatRef × SampleStore) (hgf : f ≠ g)
    (hne : acc.1.samplesRef ≠ stat.samplesRef) :
    (coalStep stat g acc).2 stat.samplesRef f = acc.2 stat.samplesRef f := by
  unfold coalStep
  cases hv : refGet stat g
  · rfl
  · dsimp only
    cases hm : refGet acc.1 g <;> simp [setSample, hgf, Ne.symm hne]

theorem coalChain_keep (stat : StatRef) (f : StatFieldKey) (sref : ℕ)
    (hne : sref ≠ stat.samplesRef) :
    ∀ (gs : List StatFieldKey), (∀ g ∈ gs, f ≠ g) →
      ∀ acc : StatRef × SampleStore, acc.1.samplesRef = sref →
      (gs.foldl (fun a g => coalStep stat g a) acc).2 stat.samplesRef f =
        acc.2 stat.samplesRef f ∧
      (gs.foldl (fun a g => coalStep stat g a) acc).1.samplesRef = sref := by
  intro gs
  induction gs with
  | nil => exact fun _ acc ha => ⟨rfl, ha⟩
  | cons g rest ih =>
    intro hg acc ha
    have h1 := coalStep_preserves stat g f acc
      (hg g (List.mem_cons_self g rest)) (by rw [ha]; exact hne)
    have h2 := coalStep_samplesRef stat g acc
    obtain ⟨ih1, ih2⟩ := ih (fun x hx => hg x (List.mem_cons_of_mem g hx))
      (coalStep stat g acc) (by rw [h2, ha])
    rw [List.foldl_cons]
    exact ⟨by rw [ih1, h1], ih2⟩

theorem convOptVal_of_some (x : ℚ) (a b : ASUnit) (v : Option ℚ)
    (h : convOptVal (some x) a b = some v) : ∃ c, v = some c := by
  simp only [convOptVal] at h
  cases hc : convertValue x a b
  · rw [hc] at h; cases h
  · rw [hc] at h
    simp only [Option.map_some'] at h
    exact ⟨_, (Option.some.inj h).symm⟩

theorem statRef_asUnits_spec (st : StatRef) (u : ASUnit) (res : StatRef)
    (h : st.asUnits u = some res) :
    res.samplesRef = st.samplesRef ∧
    ∀ f x, refGet st f = some x → ∃ c, refGet res f = some c := by
  unfold StatRef.asUnits at h
  split at h
  · cases h
    exact ⟨rfl, fun f x hx => ⟨x, hx⟩⟩
  · simp only [bind, Option.bind_eq_some] at h
    obtain ⟨v, hv, av, hav, mn, hmn, mx, hmx, g, hg2, l, hl, hres⟩ := h
    injection hres with hres
    subst hres
    refine ⟨rfl, ?_⟩
    intro f x hx
    cases f
    · have hx2 : st.Value = some x := hx
      rw [hx2] at hv
      obtain ⟨c, hc⟩ := convOptVal_of_some x _ _ v hv
      exact ⟨c, hc⟩
    · have hx2 : st.Average = some x := hx
      rw [hx2] at hav
      obtain ⟨c, hc⟩ := convOptVal_of_some x _ _ av hav
      exact ⟨c, hc⟩
    · have hx2 : st.Min = some x := hx
      rw [hx2] at hmn
      obtain ⟨c, hc⟩ := convOptVal_of_some x _ _ mn hmn
      exact ⟨c, hc⟩
    · have hx2 : st.Max = some x := hx
      rw [hx2] at hmx
      obtain ⟨c, hc⟩ := convOptVal_of_some x _ _ mx hmx
      exact ⟨c, hc⟩
    · have hx2 : st.Gain = some x := hx
      rw [hx2] at hg2
      obtain ⟨c, hc⟩ := convOptVal_of_some x _ _ g hg2
      exact ⟨c, hc⟩
    · have hx2 : st.Loss = some x := hx
      rw [hx2] at hl
      obtain ⟨c, hc⟩ := convOptVal_of_some x _ _ l hl
      exact ⟨c, hc⟩

theorem coalFold_bump (stat self : StatRef) (store : SampleStore)
    (f : StatFieldKey) (c : ℚ) (pre post : List StatFieldKey)
    (hl : coalItems = pre ++ f :: post)
    (hpre : ∀ g ∈ pre, f ≠ g) (hpost : ∀ g ∈ post, f ≠ g)
    (hc : refGet stat f = some c)
    (hne2 : self.samplesRef ≠ stat.samplesRef)
    (h0s : store stat.samplesRef f = 0) :
    (coalItems.foldl (fun a g => coalStep stat g a)
      (self, store)).2 stat.samplesRef f = 1 := by
  rw [hl, List.foldl_append, List.foldl_cons]
  obtain ⟨k1, k2⟩ := coalChain_keep stat f self.samplesRef hne2 pre hpre
    (self, store) rfl
  have e1 := coalStep_sets_other stat f
    (pre.foldl (fun a g => coalStep stat g a) (self, store)) c hc
    (by rw [k2]; exact hne2) (by rw [k1]; exact h0s)
  have e2 := coalStep_samplesRef stat f
    (pre.foldl (fun a g => coalStep stat g a) (self, store))
  obtain ⟨m1, _⟩ := coalChain_keep stat f self.samplesRef hne2 post hpost
    (coalStep stat f (pre.foldl (fun a g => coalStep stat g a) (self, store)))
    (by rw [e2, k2])
  rw [m1]
  exact e1

/-- Claim C10: `self.coalesceWith(other)` does not leave its operand
unchanged — any field of the operand that is present but has a recorded
sample count of 0 gets that count set to 1 in the operand's own sample
dict; and because `asUnits` shares the sample-count storage between a
converted copy and its original, the write lands at the original
operand's `samplesRef` even when a unit conversion produced a copy. -/
theorem c10_coalesceWith_mutates_operand (self other : StatRef)
    (store : SampleStore) (res : StatRef × SampleStore)
    (hne : self.samplesRef ≠ other.samplesRef)
    (h : StatRef.coalesceWith self other store = some res)
    (f : StatFieldKey) (b : ℚ) (hf : refGet other f = some b)
    (h0 : store other.samplesRef f = 0) :
    res.2 other.samplesRef f = 1 := by
  unfold StatRef.coalesceWith at h
  cases hconv : other.asUnits self.Units with
  | none => rw [hconv] at h; cases h
  | some stat =>
    rw [hconv] at h
    simp only [Option.map_some'] at h
    injection h with h
    obtain ⟨hsr, hpres⟩ := statRef_asUnits_spec other self.Units stat hconv
    obtain ⟨c, hc⟩ := hpres f b hf
    have hne2 : self.samplesRef ≠ stat.samplesRef := by rw [hsr]; exact hne
    have h0s : store stat.samplesRef f = 0 := by rw [hsr]; exact h0
    subst h
    rw [show other.samplesRef = stat.samplesRef from hsr.symm]
    cases f
    · exact coalFold_bump stat self store .Value c
        [] [.Max, .Min, .Average, .Gain, .Loss] rfl (by decide) (by decide)
        hc hne2 h0s
    · exact coalFold_bump stat self store .Average c
        [.Value, .Max, .Min] [.Gain, .Loss] rfl (by decide) (by decide)
        hc hne2 h0s
    · exact coalFold_bump stat self store .Min c
        [.Value, .Max] [.Average, .Gain, .Loss] rfl (by decide) (by decide)
        hc hne2 h0s
    · exact coalFold_bump stat self store .Max c
        [.Value] [.Min, .Average, .Gain, .Loss] rfl (by decide) (by decide)
        hc hne2 h0s
    · exact coalFold_bump stat self store .Gain c
        [.Value, .Max, .Min, .Average] [.Loss] rfl (by decide) (by decide)
        hc hne2 h0s
    · exact coalFold_bump stat self store .Loss c
        [.Value, .Max, .Min, .Average, .Gain] [] rfl (by decide) (by decide)
        hc hne2 h0s

/-- Witness for C10: a metre-unit `self` coalesced with a
kilometre-unit operand (so `asUnits` produced a converted copy) still
sets the original operand dict's zero `Value` count to 1. -/
theorem c10_coalesceWith_witness :
    (StatRef.coalesceWith selfRefW otherRefW storeW).map
      (fun r => r.2 1 StatFieldKey.Value) = some 1 := by
  have hres : StatRef.coalesceWith selfRefW otherRefW storeW =
      some ((StatRef.coalesceWith selfRefW otherRefW storeW).getD
        default) := rfl
  rw [hres, Option.map_some']
  exact congrArg some (c10_coalesceWith_mutates_operand selfRefW otherRefW
    storeW _ (by decide) hres .Value 2 rfl rfl)
